import Mathlib

/-!
Shallow embedding of the chemical-elements lookup tool (src/app.py).

An element record is a Python dict mapping field names to string values
(produced by csv.DictReader); keys are unique and insertion-ordered, so we
model a record as an association list looked up at the first binding.
Group records come from a JSON file as objects with a label field cs and a
member list elements.  File and console I/O is glue around the operations;
the printed diagnostic lines are modelled as part of each operation result,
and a Python exception (KeyError from an unguarded dict index, ValueError
from float) is modelled as the Option value none.
-/

/-- A Python dict of string fields: association list with unique keys. -/
def Element : Type := List (String × String)

instance : DecidableEq Element := by
  unfold Element
  infer_instance

instance : Membership Element (List Element) := by
  unfold Element
  infer_instance

/-- dict.get: value at the first binding of key k, none when k is absent. -/
def getField (e : Element) (k : String) : Option String :=
  match e with
  | [] => none
  | (k₀, v₀) :: rest => if k₀ == k then some v₀ else getField rest k

/-- dict assignment d[k] = v: replace the first binding of k in place,
or append a new binding at the end when k is absent. -/
def setField (e : Element) (k v : String) : Element :=
  match e with
  | [] => [(k, v)]
  | (k₀, v₀) :: rest => if k₀ == k then (k, v) :: rest else (k₀, v₀) :: setField rest k v

/-- Python truthiness of a string: truthy iff non-empty. -/
def truthyS (s : String) : Bool :=
  s != ""

/-- Python truthiness of a value that is either a string or None
(dict.get result, or an optional argument). -/
def truthyO : Option String → Bool
  | none => false
  | some s => truthyS s

/-- One record of the groups.json table: a label cs and a member list. -/
structure GroupRec where
  cs : String
  elements : List String
deriving DecidableEq

/-- find_group (src/app.py lines 59-64): scan the group table in order and
return the cs label of the first group whose member list contains symbol;
the sentinel label when no group contains it. -/
def find_group (groups : List GroupRec) (symbol : String) : String :=
  match groups with
  | [] => "Neznámá skupina"
  | g :: rest => if g.elements.contains symbol then g.cs else find_group rest symbol

/-- The line printed by search_element on a hit. -/
def foundMsg : String := "\n--- Výsledek hledání ---"

/-- The diagnostic printed by search_element when nothing matches. -/
def notFoundMsg : String := "\nPrvek nebyl nalezen.\n"

/-- search_element (src/app.py lines 48-57): linear scan; the first element
whose field criterion equals value (dict.get comparison, so a missing field
is None and never equal to the string value) is returned, after its Group
field is lazily populated via find_group when it is falsy.  The result
carries the returned record, the updated collection, the printed lines, and
the number of find_group invocations (for the caching property).  none
models the KeyError raised by element["Symbol"] when the matched record
lacks a Symbol field; the lines printed before an exception are dropped. -/
def search_element (elements : List Element) (groups : List GroupRec)
    (criterion value : String) : Option (Element × List Element × List String × Nat) :=
  match elements with
  | [] => some ([], [], [notFoundMsg], 0)
  | e :: rest =>
    if getField e criterion == some value then
      if truthyO (getField e "Group") then
        some (e, e :: rest, [foundMsg], 0)
      else
        match getField e "Symbol" with
        | none => none
        | some sym =>
          some (setField e "Group" (find_group groups sym),
                setField e "Group" (find_group groups sym) :: rest, [foundMsg], 1)
    else
      (search_element rest groups criterion value).map
        (fun out => (out.1, e :: out.2.1, out.2.2.1, out.2.2.2))

/-- Digit string to Nat with accumulator; none on any non-digit. -/
def digitsToNat : List Char → Nat → Option Nat
  | [], acc => some acc
  | c :: cs, acc =>
    if c.isDigit then digitsToNat cs (acc * 10 + (c.toNat - 48)) else none

/-- Python float(s) on the plain decimal literals this dataset uses
(optional sign, digits, optional fraction; "1.", ".5" accepted, "", ".",
"abc" rejected), read exactly as a rational.  Exponent forms, underscores
and inf or nan never occur in the data and are not modelled; binary
floating-point rounding is below the granularity of this model. -/
def pyFloat (s : String) : Option ℚ :=
  let (sign, cs) :=
    match s.toList with
    | '-' :: rest => ((-1 : ℚ), rest)
    | '+' :: rest => ((1 : ℚ), rest)
    | cs => ((1 : ℚ), cs)
  let (ip, rest) := cs.span (fun c => c != '.')
  match rest with
  | [] =>
    if ip.isEmpty then none
    else (digitsToNat ip 0).map (fun n => sign * (n : ℚ))
  | _ :: fp =>
    if ip.isEmpty && fp.isEmpty then none
    else
      match digitsToNat ip 0, digitsToNat fp 0 with
      | some i, some f =>
        some (sign * ((i : ℚ) + (f : ℚ) / (10 : ℚ) ^ fp.length))
      | _, _ => none

/-- statistics.mean of a list of numbers. -/
def pyMean (L : List ℚ) : ℚ :=
  L.sum / (L.length : ℚ)

/-- The list comprehension of calculate_average_mass (src/app.py lines 85
and 87): for each element in order, read element[key] (KeyError when
absent), keep the element when it equals target, and for kept elements
parse float(element["AtomicMass"]) (KeyError when absent, ValueError when
not numeric).  none models the first exception raised. -/
def filterMass (elements : List Element) (key target : String) : Option (List ℚ) :=
  match elements with
  | [] => some []
  | e :: rest =>
    match getField e key with
    | none => none
    | some fv =>
      if fv == target then
        match getField e "AtomicMass" with
        | none => none
        | some ms =>
          match pyFloat ms with
          | none => none
          | some q => (filterMass rest key target).map (fun L => q :: L)
      else filterMass rest key target

/-- Result of calculate_average_mass: the returned number and the
diagnostic line printed when the function returns the failure value 0.0
(the success-path print of the rounded average is display only and carries
no information beyond the returned value). -/
structure MassOut where
  value : ℚ
  diag : Option String
deriving DecidableEq

/-- Diagnostic for group and period both supplied. -/
def msgBoth : String := "\nChyba: Zadejte buď skupinu, nebo periodu, ne obojí.\n"

/-- Diagnostic for neither group nor period supplied. -/
def msgNeither : String := "\nMusíte zadat buď skupinu, nebo periodu.\n"

/-- Diagnostic for a filter that selected no elements. -/
def msgEmpty : String := "\nŽádné prvky k výpočtu pro dané kritérium.\n"

/-- Final step of calculate_average_mass (src/app.py lines 92-98): mean of
the collected masses when any were collected, else the 0.0 failure with
the nothing-to-compute diagnostic. -/
def finishMass (L : List ℚ) : MassOut :=
  if L.isEmpty then ⟨0, some msgEmpty⟩ else ⟨pyMean L, none⟩

/-- calculate_average_mass (src/app.py lines 77-98).  group and period are
the optional keyword arguments (None by default; Python truthiness, so an
empty string counts as not supplied).  none models a propagating
exception from the filtering comprehension. -/
def calculate_average_mass (elements : List Element)
    (group period : Option String) : Option MassOut :=
  if truthyO group && truthyO period then
    some ⟨0, some msgBoth⟩
  else if truthyO group then
    (filterMass elements "Group" (group.getD "")).map finishMass
  else if truthyO period then
    (filterMass elements "Period" (period.getD "")).map finishMass
  else
    some ⟨0, some msgNeither⟩

/-- The filtering core of export_to_json (src/app.py line 124): keep, in
collection order, exactly the elements whose Symbol is among the
interactively collected symbols; the written JSON array is this list with
every field preserved.  element["Symbol"] is an unguarded index, so none
models the KeyError on a record without a Symbol field. -/
def export_to_json (elements : List Element) (syms : List String) :
    Option (List Element) :=
  match elements with
  | [] => some []
  | e :: rest =>
    match getField e "Symbol" with
    | none => none
    | some s =>
      (export_to_json rest syms).map
        (fun tail => if syms.contains s then e :: tail else tail)

/-- Specification-side view of the aggregation filter: the elements whose
field key equals v, each with its AtomicMass parsed to a rational. -/
def massesOf (elements : List Element) (key v : String) : List ℚ :=
  (elements.filter (fun e => getField e key == some v)).filterMap
    (fun e => (getField e "AtomicMass").bind pyFloat)

/-- Specification-side view of the lazy group population performed on the
record returned by search_element: the record unchanged when its Group
field is already truthy, otherwise with Group set to the resolved label
for its Symbol. -/
def resolveG (groups : List GroupRec) (e : Element) : Element :=
  if truthyO (getField e "Group") then e
  else setField e "Group" (find_group groups ((getField e "Symbol").getD ""))

/-! ### Helper lemmas about field access and update -/

theorem getField_setField_self (e : Element) (k val : String) :
    getField (setField e k val) k = some val := by
  induction e with
  | nil => simp [setField, getField]
  | cons p rest ih =>
    obtain ⟨k₀, v₀⟩ := p
    by_cases hk : k₀ = k
    · subst hk
      simp [setField, getField]
    · simp only [setField, getField, beq_iff_eq, if_neg hk]
      exact ih

theorem getField_setField_ne (e : Element) (k val f : String) (hf : f ≠ k) :
    getField (setField e k val) f = getField e f := by
  induction e with
  | nil => simp [setField, getField, Ne.symm hf]
  | cons p rest ih =>
    obtain ⟨k₀, v₀⟩ := p
    by_cases hk : k₀ = k
    · subst hk
      simp [setField, getField, Ne.symm hf]
    · simp only [setField, getField, beq_iff_eq, if_neg hk]
      by_cases hkf : k₀ = f
      · simp [getField, hkf]
      · simp only [getField, beq_iff_eq, if_neg hkf]
        exact ih

/-! ### Helper lemmas about search_element -/

theorem search_element_no_match (groups : List GroupRec) (c v : String) :
    ∀ elements : List Element, (∀ e ∈ elements, getField e c ≠ some v) →
      search_element elements groups c v = some ([], elements, [notFoundMsg], 0) := by
  intro elements
  induction elements with
  | nil => intro _; rfl
  | cons e rest ih =>
    intro h
    have he : (getField e c == some v) = false :=
      beq_eq_false_iff_ne.mpr (h e (List.mem_cons_self e rest))
    have hrest := ih (fun e' he' => h e' (List.mem_cons_of_mem e he'))
    simp only [search_element, he, Bool.false_eq_true, if_false, hrest, Option.map_some']

theorem search_element_found_truthy (groups : List GroupRec) (c v : String)
    (e : Element) (post : List Element)
    (he : getField e c = some v) (hg : truthyO (getField e "Group") = true) :
    ∀ pre : List Element, (∀ e' ∈ pre, getField e' c ≠ some v) →
      search_element (pre ++ e :: post) groups c v =
        some (e, pre ++ e :: post, [foundMsg], 0) := by
  intro pre
  induction pre with
  | nil =>
    intro _
    simp [search_element, he, hg]
  | cons p pre ih =>
    intro h
    have hp : (getField p c == some v) = false :=
      beq_eq_false_iff_ne.mpr (h p (List.mem_cons_self p pre))
    have hrest := ih (fun e' he' => h e' (List.mem_cons_of_mem p he'))
    rw [List.cons_append]
    simp only [search_element, hp, Bool.false_eq_true, if_false, List.append_eq, hrest,
      Option.map_some', List.cons_append]

theorem search_element_found_resolve (groups : List GroupRec) (c v : String)
    (e : Element) (post : List Element) (sym : String)
    (he : getField e c = some v) (hg : truthyO (getField e "Group") = false)
    (hs : getField e "Symbol" = some sym) :
    ∀ pre : List Element, (∀ e' ∈ pre, getField e' c ≠ some v) →
      search_element (pre ++ e :: post) groups c v =
        some (setField e "Group" (find_group groups sym),
              pre ++ setField e "Group" (find_group groups sym) :: post, [foundMsg], 1) := by
  intro pre
  induction pre with
  | nil =>
    intro _
    simp [search_element, he, hg, hs]
  | cons p pre ih =>
    intro h
    have hp : (getField p c == some v) = false :=
      beq_eq_false_iff_ne.mpr (h p (List.mem_cons_self p pre))
    have hrest := ih (fun e' he' => h e' (List.mem_cons_of_mem p he'))
    rw [List.cons_append]
    simp only [search_element, hp, Bool.false_eq_true, if_false, List.append_eq, hrest,
      Option.map_some', List.cons_append]

/-- Full case analysis of a non-crashing search_element call: either nothing
matched and the collection is untouched, or the collection splits at the
first match, which is returned as is when its Group field was truthy and
with the Group field resolved and written back otherwise. -/
theorem search_element_cases (groups : List GroupRec) (c v : String) :
    ∀ (elements : List Element) (r : Element) (es : List Element)
      (m : List String) (k : Nat),
      search_element elements groups c v = some (r, es, m, k) →
      (r = [] ∧ es = elements ∧ m = [notFoundMsg] ∧ k = 0 ∧
        ∀ e ∈ elements, getField e c ≠ some v)
      ∨ (∃ pre e post, elements = pre ++ e :: post ∧
          (∀ e' ∈ pre, getField e' c ≠ some v) ∧ getField e c = some v ∧
          m = [foundMsg] ∧
          ((truthyO (getField e "Group") = true ∧ r = e ∧ es = elements ∧ k = 0)
           ∨ (truthyO (getField e "Group") = false ∧ ∃ sym,
              getField e "Symbol" = some sym ∧
              r = setField e "Group" (find_group groups sym) ∧
              es = pre ++ r :: post ∧ k = 1))) := by
  intro elements
  induction elements with
  | nil =>
    intro r es m k h
    simp only [search_element, Option.some.injEq, Prod.mk.injEq] at h
    obtain ⟨h1, h2, h3, h4⟩ := h
    exact Or.inl ⟨h1.symm, h2.symm, h3.symm, h4.symm, by simp⟩
  | cons e rest ih =>
    intro r es m k h
    simp only [search_element] at h
    by_cases hc : (getField e c == some v) = true
    · rw [if_pos hc] at h
      have hcv : getField e c = some v := beq_iff_eq.mp hc
      by_cases hg : truthyO (getField e "Group") = true
      · rw [if_pos hg] at h
        simp only [Option.some.injEq, Prod.mk.injEq] at h
        obtain ⟨h1, h2, h3, h4⟩ := h
        refine Or.inr ⟨[], e, rest, rfl, by simp, hcv, h3.symm, Or.inl ⟨hg, h1.symm, h2.symm, h4.symm⟩⟩
      · rw [if_neg hg] at h
        cases hs : getField e "Symbol" with
        | none => rw [hs] at h; exact absurd h (by simp)
        | some sym =>
          rw [hs] at h
          simp only [Option.some.injEq, Prod.mk.injEq] at h
          obtain ⟨h1, h2, h3, h4⟩ := h
          refine Or.inr ⟨[], e, rest, rfl, by simp, hcv, h3.symm,
            Or.inr ⟨Bool.not_eq_true _ ▸ hg, sym, hs, h1.symm, by rw [← h1, ← h2]; rfl, h4.symm⟩⟩
    · rw [if_neg hc] at h
      have hcne : getField e c ≠ some v := by
        intro hx
        exact hc (by rw [hx]; exact beq_self_eq_true _)
      cases hrec : search_element rest groups c v with
      | none => rw [hrec] at h; exact absurd h (by simp)
      | some out =>
        obtain ⟨r', rest₁, m', k'⟩ := out
        rw [hrec] at h
        simp only [Option.map_some', Option.some.injEq, Prod.mk.injEq] at h
        obtain ⟨h1, h2, h3, h4⟩ := h
        rcases ih r' rest₁ m' k' hrec with
          ⟨g1, g2, g3, g4, g5⟩ | ⟨pre, e₀, post, g1, g2, g3, g4, g5⟩
        · refine Or.inl ⟨h1 ▸ g1, ?_, h3 ▸ g3, h4 ▸ g4, ?_⟩
          · rw [← h2, g2]
          · intro x hx
            rcases List.mem_cons.mp hx with hx | hx
            · exact hx ▸ hcne
            · exact g5 x hx
        · have hmem : ∀ e' ∈ e :: pre, getField e' c ≠ some v := by
            intro x hx
            rcases List.mem_cons.mp hx with hx | hx
            · exact hx ▸ hcne
            · exact g2 x hx
          have hsplit : e :: rest = (e :: pre) ++ e₀ :: post := by
            rw [g1]; rfl
          rcases g5 with ⟨t1, t2, t3, t4⟩ | ⟨t1, sym, t2, t3, t4, t5⟩
          · refine Or.inr ⟨e :: pre, e₀, post, hsplit, hmem, g3, h3 ▸ g4,
              Or.inl ⟨t1, h1 ▸ t2, ?_, h4 ▸ t4⟩⟩
            rw [← h2, t3, g1]
          · refine Or.inr ⟨e :: pre, e₀, post, hsplit, hmem, g3, h3 ▸ g4,
              Or.inr ⟨t1, sym, t2, h1 ▸ t3, ?_, h4 ▸ t5⟩⟩
            rw [← h2, t4, h1]
            rfl

/-! ### Helper lemmas about find_group and the aggregation filter -/

theorem find_group_not_mem (symbol : String) :
    ∀ groups : List GroupRec, (∀ g ∈ groups, g.elements.contains symbol = false) →
      find_group groups symbol = "Neznámá skupina" := by
  intro groups
  induction groups with
  | nil => intro _; rfl
  | cons g rest ih =>
    intro h
    have hg := h g (List.mem_cons_self g rest)
    simp only [find_group, hg, Bool.false_eq_true, if_false]
    exact ih (fun g' hg' => h g' (List.mem_cons_of_mem g hg'))

theorem find_group_first (symbol : String) (g : GroupRec) (post : List GroupRec)
    (hg : g.elements.contains symbol = true) :
    ∀ pre : List GroupRec, (∀ g' ∈ pre, g'.elements.contains symbol = false) →
      find_group (pre ++ g :: post) symbol = g.cs := by
  intro pre
  induction pre with
  | nil =>
    intro _
    rw [List.nil_append]
    simp only [find_group, hg]
    exact if_pos trivial
  | cons p pre ih =>
    intro h
    have hp := h p (List.mem_cons_self p pre)
    rw [List.cons_append]
    simp only [find_group, hp, Bool.false_eq_true, if_false]
    exact ih (fun g' hg' => h g' (List.mem_cons_of_mem p hg'))

theorem find_group_ne_empty (symbol : String) :
    ∀ groups : List GroupRec, (∀ g ∈ groups, g.cs ≠ "") →
      find_group groups symbol ≠ "" := by
  intro groups
  induction groups with
  | nil =>
    intro _
    rw [show find_group [] symbol = "Neznámá skupina" from rfl]
    decide
  | cons g rest ih =>
    intro h
    simp only [find_group]
    by_cases hm : g.elements.contains symbol = true
    · rw [if_pos hm]
      exact h g (List.mem_cons_self g rest)
    · rw [if_neg hm]
      exact ih (fun g' hg' => h g' (List.mem_cons_of_mem g hg'))

theorem filterMass_eq (key v : String) :
    ∀ elements : List Element,
      (∀ e ∈ elements, (getField e key).isSome) →
      (∀ e ∈ elements, getField e key = some v →
        ((getField e "AtomicMass").bind pyFloat).isSome) →
      filterMass elements key v = some (massesOf elements key v) := by
  intro elements
  induction elements with
  | nil => intro _ _; rfl
  | cons e rest ih =>
    intro hf hp
    have hrest := ih (fun e' he' => hf e' (List.mem_cons_of_mem e he'))
      (fun e' he' => hp e' (List.mem_cons_of_mem e he'))
    obtain ⟨fv, hfv⟩ := Option.isSome_iff_exists.mp (hf e (List.mem_cons_self e rest))
    by_cases hfe : fv = v
    · subst hfe
      have hmass := hp e (List.mem_cons_self e rest) hfv
      cases ham : getField e "AtomicMass" with
      | none => rw [ham] at hmass; exact absurd hmass (by simp)
      | some ms =>
        cases hq : pyFloat ms with
        | none =>
          rw [ham] at hmass
          simp only [Option.some_bind, hq] at hmass
          exact absurd hmass (by simp)
        | some q =>
          simp only [filterMass, hfv, beq_self_eq_true, if_true, ham, hq, hrest,
            Option.map_some', massesOf, List.filter_cons, List.filterMap_cons,
            Option.some_bind]
    · simp only [filterMass, hfv]
      have hbeq : (fv == v) = false := beq_eq_false_iff_ne.mpr hfe
      rw [hbeq]
      simp only [Bool.false_eq_true, if_false, hrest, massesOf, List.filter_cons, hfv]
      have hbeq₂ : (some fv == some v) = false :=
        beq_eq_false_iff_ne.mpr (by simp [hfe])
      rw [hbeq₂]
      simp

/-- C7: export_to_json keeps exactly the elements whose Symbol is among
the requested symbols, in the source collection order (filter preserves
order) and with every record passed through unchanged (all fields
preserved); requested symbols matching nothing are silently dropped.
Every record carries a Symbol field, as the data model requires. -/
theorem export_to_json_symbol_filter (syms : List String) :
    ∀ elements : List Element, (∀ e ∈ elements, (getField e "Symbol").isSome) →
      export_to_json elements syms =
        some (elements.filter
          (fun e => (getField e "Symbol").any (fun s => syms.contains s))) := by
  intro elements
  induction elements with
  | nil => intro _; rfl
  | cons e rest ih =>
    intro hf
    have hrest := ih (fun e' he' => hf e' (List.mem_cons_of_mem e he'))
    obtain ⟨s, hs⟩ := Option.isSome_iff_exists.mp (hf e (List.mem_cons_self e rest))
    simp only [export_to_json, hs, hrest, Option.map_some', List.filter_cons,
      Option.any_some]

/-! ### Claim theorems -/

/-- C1: calculate_average_mass with exactly one of group/period supplied
filters the elements by exact string equality on the Group (respectively
Period) field, parses each matching AtomicMass to a decimal number and
returns the arithmetic mean, with the nothing-to-compute diagnostic and
the failure value 0.0 when the filter selects no element. -/
theorem calculate_average_mass_filters_and_averages
    (elements : List Element) (v : String) (hv : v ≠ "")
    (hfields : ∀ e ∈ elements, (getField e "Group").isSome ∧
      (getField e "Period").isSome ∧ (getField e "AtomicMass").isSome) :
    ((∀ e ∈ elements, getField e "Group" = some v →
        ((getField e "AtomicMass").bind pyFloat).isSome) →
      calculate_average_mass elements (some v) none =
        some (if massesOf elements "Group" v = [] then ⟨0, some msgEmpty⟩
              else ⟨(massesOf elements "Group" v).sum /
                    ((massesOf elements "Group" v).length : ℚ), none⟩))
    ∧ ((∀ e ∈ elements, getField e "Period" = some v →
        ((getField e "AtomicMass").bind pyFloat).isSome) →
      calculate_average_mass elements none (some v) =
        some (if massesOf elements "Period" v = [] then ⟨0, some msgEmpty⟩
              else ⟨(massesOf elements "Period" v).sum /
                    ((massesOf elements "Period" v).length : ℚ), none⟩)) := by
  have hfin : ∀ key : String, filterMass elements key v = some (massesOf elements key v) →
      (filterMass elements key v).map finishMass =
        some (if massesOf elements key v = [] then ⟨0, some msgEmpty⟩
              else ⟨(massesOf elements key v).sum /
                    ((massesOf elements key v).length : ℚ), none⟩) := by
    intro key hk
    rw [hk, Option.map_some']
    by_cases hL : massesOf elements key v = []
    · simp [finishMass, hL]
    · simp [finishMass, hL, pyMean]
  constructor
  · intro hp
    have hrw := filterMass_eq "Group" v elements (fun e he => (hfields e he).1) hp
    have h1 : calculate_average_mass elements (some v) none =
        (filterMass elements "Group" v).map finishMass := by
      simp [calculate_average_mass, truthyO, truthyS, hv]
    rw [h1]
    exact hfin "Group" hrw
  · intro hp
    have hrw := filterMass_eq "Period" v elements (fun e he => (hfields e he).2.1) hp
    have h1 : calculate_average_mass elements none (some v) =
        (filterMass elements "Period" v).map finishMass := by
      simp [calculate_average_mass, truthyO, truthyS, hv]
    rw [h1]
    exact hfin "Period" hrw

/-- Witness for C1: masses 1.008 and 4.0026 in group 1 average to 2.5053,
and a period matching nothing yields 0.0 with the diagnostic. -/
theorem calculate_average_mass_filters_and_averages_witness :
    calculate_average_mass
      [[("Group", "1"), ("Period", "1"), ("AtomicMass", "1.008")],
       [("Group", "1"), ("Period", "2"), ("AtomicMass", "4.0026")]] (some "1") none =
      some ⟨2.5053, none⟩ ∧
    calculate_average_mass
      [[("Group", "1"), ("Period", "1"), ("AtomicMass", "1.008")],
       [("Group", "1"), ("Period", "2"), ("AtomicMass", "4.0026")]] none (some "9") =
      some ⟨0, some msgEmpty⟩ := by
  constructor
  · have h := (calculate_average_mass_filters_and_averages
      [[("Group", "1"), ("Period", "1"), ("AtomicMass", "1.008")],
       [("Group", "1"), ("Period", "2"), ("AtomicMass", "4.0026")]]
      "1" (by decide) (by decide)).1 (by decide)
    rw [h]
    have hm : massesOf
        [[("Group", "1"), ("Period", "1"), ("AtomicMass", "1.008")],
         [("Group", "1"), ("Period", "2"), ("AtomicMass", "4.0026")]] "Group" "1" =
        [1 * (((1 : ℕ) : ℚ) + ((8 : ℕ) : ℚ) / (10 : ℚ) ^ (3 : ℕ)),
         1 * (((4 : ℕ) : ℚ) + ((26 : ℕ) : ℚ) / (10 : ℚ) ^ (4 : ℕ))] := rfl
    rw [hm]
    rw [if_neg (by decide)]
    simp only [Option.some.injEq, MassOut.mk.injEq, List.sum_cons, List.sum_nil,
      List.length_cons, List.length_nil, and_true]
    norm_num
  · have h := (calculate_average_mass_filters_and_averages
      [[("Group", "1"), ("Period", "1"), ("AtomicMass", "1.008")],
       [("Group", "1"), ("Period", "2"), ("AtomicMass", "4.0026")]]
      "9" (by decide) (by decide)).2 (by decide)
    rw [h]
    rfl

/-- C2: search_element returns the first element in collection order whose
field named criterion is exactly string-equal to value (no normalization:
a stored "08" is not returned for a searched "8"); the returned record is
that element, with only the lazy Group population applied.  The matched
record has a Symbol field or a truthy Group field, as the data model
requires of every element record. -/
theorem search_element_first_exact_match
    (elements : List Element) (groups : List GroupRec) (criterion value : String)
    (pre : List Element) (e : Element) (post : List Element)
    (hsplit : elements = pre ++ e :: post)
    (hpre : ∀ e' ∈ pre, getField e' criterion ≠ some value)
    (he : getField e criterion = some value)
    (hwf : truthyO (getField e "Group") = true ∨ (getField e "Symbol").isSome) :
    search_element elements groups criterion value =
      some (resolveG groups e, pre ++ resolveG groups e :: post, [foundMsg],
            if truthyO (getField e "Group") then 0 else 1) := by
  subst hsplit
  by_cases hg : truthyO (getField e "Group") = true
  · rw [show resolveG groups e = e from by simp [resolveG, hg]]
    rw [if_pos hg]
    exact search_element_found_truthy groups criterion value e post he hg pre hpre
  · have hg' : truthyO (getField e "Group") = false := by
      rw [Bool.not_eq_true] at hg
      exact hg
    obtain ⟨sym, hs⟩ := Option.isSome_iff_exists.mp (hwf.resolve_left hg)
    have hres : resolveG groups e = setField e "Group" (find_group groups sym) := by
      simp [resolveG, hg', hs]
    rw [hres, if_neg hg]
    exact search_element_found_resolve groups criterion value e post sym he hg' hs pre hpre

/-- Witness for C2: searching AtomicNumber "8" skips a stored "08" and
returns the later exact match unchanged. -/
theorem search_element_first_exact_match_witness :
    search_element
      [[("AtomicNumber", "08"), ("Symbol", "X"), ("Group", "2")],
       [("AtomicNumber", "8"), ("Symbol", "O"), ("Group", "16")]]
      [] "AtomicNumber" "8" =
      some ([("AtomicNumber", "8"), ("Symbol", "O"), ("Group", "16")],
            [[("AtomicNumber", "08"), ("Symbol", "X"), ("Group", "2")],
             [("AtomicNumber", "8"), ("Symbol", "O"), ("Group", "16")]],
            [foundMsg], 0) := by
  have h := search_element_first_exact_match
    [[("AtomicNumber", "08"), ("Symbol", "X"), ("Group", "2")],
     [("AtomicNumber", "8"), ("Symbol", "O"), ("Group", "16")]]
    [] "AtomicNumber" "8"
    [[("AtomicNumber", "08"), ("Symbol", "X"), ("Group", "2")]]
    [("AtomicNumber", "8"), ("Symbol", "O"), ("Group", "16")] []
    rfl (by decide) rfl (Or.inl rfl)
  rw [h]
  rfl

/-- C3: find_group scans the table in order and returns the cs label of
the first group containing the symbol (earliest group wins on overlap),
and the unknown-group sentinel when no group contains it; as a pure
function it is deterministic and leaves the table untouched. -/
theorem find_group_first_match_and_sentinel :
    (∀ (groups : List GroupRec) (symbol : String) (pre : List GroupRec)
       (g : GroupRec) (post : List GroupRec),
       groups = pre ++ g :: post →
       g.elements.contains symbol = true →
       (∀ g' ∈ pre, g'.elements.contains symbol = false) →
       find_group groups symbol = g.cs)
    ∧ (∀ (groups : List GroupRec) (symbol : String),
       (∀ g ∈ groups, g.elements.contains symbol = false) →
       find_group groups symbol = "Neznámá skupina") := by
  constructor
  · intro groups symbol pre g post hsplit hg hpre
    subst hsplit
    exact find_group_first symbol g post hg pre hpre
  · intro groups symbol h
    exact find_group_not_mem symbol groups h

/-- Witness for C3: with overlapping membership the earliest group wins,
and an unknown symbol maps to the sentinel label. -/
theorem find_group_first_match_and_sentinel_witness :
    find_group [⟨"Alkalické kovy", ["H", "Li"]⟩, ⟨"Halogeny", ["H", "F"]⟩] "H" =
      "Alkalické kovy" ∧
    find_group [⟨"Alkalické kovy", ["H", "Li"]⟩, ⟨"Halogeny", ["H", "F"]⟩] "Xx" =
      "Neznámá skupina" := by
  constructor
  · exact find_group_first_match_and_sentinel.1
      [⟨"Alkalické kovy", ["H", "Li"]⟩, ⟨"Halogeny", ["H", "F"]⟩] "H"
      [] ⟨"Alkalické kovy", ["H", "Li"]⟩ [⟨"Halogeny", ["H", "F"]⟩]
      rfl (by decide) (by decide)
  · exact find_group_first_match_and_sentinel.2
      [⟨"Alkalické kovy", ["H", "Li"]⟩, ⟨"Halogeny", ["H", "F"]⟩] "Xx" (by decide)

/-- C4: calculate_average_mass with both group and period truthy, or with
neither truthy, returns the failure value 0.0 with the respective
diagnostic, raising nothing; the result does not depend on the element
collection at all, so the collection is neither read nor modified. -/
theorem calculate_average_mass_argument_validation
    (elements : List Element) (group period : Option String)
    (h : truthyO group = truthyO period) :
    calculate_average_mass elements group period =
      some ⟨0, some (if truthyO group then msgBoth else msgNeither)⟩ := by
  cases hg : truthyO group
  · rw [hg] at h
    simp [calculate_average_mass, hg, ← h]
  · rw [hg] at h
    simp [calculate_average_mass, hg, ← h]

/-- Witness for C4: a collection holding a fieldless record (whose reading
would raise) is untouched in both failure modes. -/
theorem calculate_average_mass_argument_validation_witness :
    calculate_average_mass [[]] (some "1") (some "2") = some ⟨0, some msgBoth⟩ ∧
    calculate_average_mass [[]] none none = some ⟨0, some msgNeither⟩ := by
  constructor
  · have h := calculate_average_mass_argument_validation [[]] (some "1") (some "2") rfl
    rw [h]
    rfl
  · have h := calculate_average_mass_argument_validation [[]] none none rfl
    rw [h]
    rfl

/-- C8: a filtered-in element with an unparseable AtomicMass makes
calculate_average_mass fail with a propagating error: the malformed row is
not skipped and no mean over the remaining rows is returned. -/
theorem calculate_average_mass_malformed_mass_raises :
    calculate_average_mass
      [[("Group", "1"), ("AtomicMass", "1.008")],
       [("Group", "1"), ("AtomicMass", "abc")]] (some "1") none = none := rfl

/-- Witness for C7: requesting H and Xx where only H exists exports
exactly the H record, Xx silently ignored. -/
theorem export_to_json_symbol_filter_witness :
    export_to_json [[("Symbol", "H"), ("Element", "Vodík"), ("AtomicMass", "1.008")]]
      ["H", "Xx"] =
      some [[("Symbol", "H"), ("Element", "Vodík"), ("AtomicMass", "1.008")]] := by
  have h := export_to_json_symbol_filter ["H", "Xx"]
    [[("Symbol", "H"), ("Element", "Vodík"), ("AtomicMass", "1.008")]] (by decide)
  rw [h]
  rfl

/-- C5 counterexample: the not-found result of search_element is the empty
record itself, so it is not an explicit signal distinguishable from an
element record that has no fields. -/
theorem search_element_not_found_is_empty_record :
    search_element [[("Symbol", "H")]] [] "Symbol" "He" =
      some (([] : Element), [[("Symbol", "H")]], [notFoundMsg], 0) := rfl

/-- C5 (amended): when no element matches, search_element reports the
not-found diagnostic and returns the empty record, which is exactly an
element record with no fields — callers must rely on the printed
diagnostic, not on the shape of the returned value. -/
theorem search_element_not_found_returns_empty
    (elements : List Element) (groups : List GroupRec) (criterion value : String)
    (h : ∀ e ∈ elements, getField e criterion ≠ some value) :
    search_element elements groups criterion value =
      some ([], elements, [notFoundMsg], 0) :=
  search_element_no_match groups criterion value elements h

/-- Witness for C5. -/
theorem search_element_not_found_returns_empty_witness :
    search_element [[("Symbol", "H")]] [] "Symbol" "Xx" =
      some ([], [[("Symbol", "H")]], [notFoundMsg], 0) :=
  search_element_not_found_returns_empty [[("Symbol", "H")]] [] "Symbol" "Xx" (by decide)

/-- C9: elements lacking the criterion field are skipped (dict.get returns
None, never equal to the searched string), so a search on a field absent
from every element terminates normally with the not-found result and an
unchanged collection. -/
theorem search_element_skips_missing_criterion
    (elements : List Element) (groups : List GroupRec) (criterion value : String)
    (h : ∀ e ∈ elements, getField e criterion = none) :
    search_element elements groups criterion value =
      some ([], elements, [notFoundMsg], 0) :=
  search_element_no_match groups criterion value elements
    (fun e he => by simp [h e he])

/-- Witness for C9: a criterion absent from every record. -/
theorem search_element_skips_missing_criterion_witness :
    search_element [[("Symbol", "H")], [("Symbol", "He")]] [] "Flavor" "X" =
      some ([], [[("Symbol", "H")], [("Symbol", "He")]], [notFoundMsg], 0) :=
  search_element_skips_missing_criterion
    [[("Symbol", "H")], [("Symbol", "He")]] [] "Flavor" "X" (by decide)

/-- C6 counterexample: resolving against a group whose cs label is the
empty string caches a falsy Group value, so a second search on the same
element after the table changed re-invokes the resolver (count 1, not 0)
and overwrites the cached value. -/
theorem search_element_empty_label_breaks_cache :
    (search_element [[("Symbol", "H")]] [⟨"", ["H"]⟩] "Symbol" "H" =
      some ([("Symbol", "H"), ("Group", "")],
            [[("Symbol", "H"), ("Group", "")]], [foundMsg], 1))
    ∧ (search_element [[("Symbol", "H"), ("Group", "")]] [⟨"X", ["H"]⟩] "Symbol" "H" =
      some ([("Symbol", "H"), ("Group", "X")],
            [[("Symbol", "H"), ("Group", "X")]], [foundMsg], 1)) := ⟨rfl, rfl⟩

/-- C6 (amended): a returned search mutates at most the Group field of the
first matching element — only when that field was falsy, setting it to the
resolver label for its Symbol, every other field of every element
unchanged — and a second search matching the same record re-invokes
nothing and changes nothing (resolver count 0) for any, even modified,
group table, provided the cached Group value is truthy; a cached empty
label (possible only when a cs label is the empty string) is falsy and
leads to re-resolution. -/
theorem search_element_frame_and_cache
    (elements : List Element) (groups : List GroupRec) (criterion value : String)
    (r : Element) (es : List Element) (m : List String) (k : Nat)
    (h : search_element elements groups criterion value = some (r, es, m, k)) :
    (es = elements ∨
      ∃ pre e post sym, elements = pre ++ e :: post ∧
        (∀ e' ∈ pre, getField e' criterion ≠ some value) ∧
        getField e criterion = some value ∧
        truthyO (getField e "Group") = false ∧
        getField e "Symbol" = some sym ∧
        r = setField e "Group" (find_group groups sym) ∧
        es = pre ++ r :: post ∧
        getField r "Group" = some (find_group groups sym) ∧
        (∀ f, f ≠ "Group" → getField r f = getField e f))
    ∧ (truthyO (getField r "Group") = true → getField r criterion = some value →
        ∀ groups₂, search_element es groups₂ criterion value =
          some (r, es, [foundMsg], 0)) := by
  rcases search_element_cases groups criterion value elements r es m k h with
    ⟨h1, h2, h3, h4, h5⟩ | ⟨pre, e, post, h1, h2, h3, h4, h6⟩
  · constructor
    · exact Or.inl h2
    · intro ht _ _
      rw [h1] at ht
      simp [getField, truthyO] at ht
  · rcases h6 with ⟨t1, t2, t3, t4⟩ | ⟨t1, sym, t2, t3, t4, t5⟩
    · constructor
      · exact Or.inl t3
      · intro ht hc groups₂
        rw [t2] at ht hc
        rw [t3, h1, t2]
        exact search_element_found_truthy groups₂ criterion value e post hc ht pre h2
    · constructor
      · refine Or.inr ⟨pre, e, post, sym, h1, h2, h3, t1, t2, t3, t4, ?_, ?_⟩
        · rw [t3]
          exact getField_setField_self e "Group" (find_group groups sym)
        · intro f hf
          rw [t3]
          exact getField_setField_ne e "Group" (find_group groups sym) f hf
      · intro ht hc groups₂
        rw [t4]
        exact search_element_found_truthy groups₂ criterion value r post hc ht pre h2

/-- Witness for C6: after a first search resolved and cached the group,
a second search with the table emptied returns the cached record with
zero resolver invocations and no change. -/
theorem search_element_frame_and_cache_witness :
    search_element [[("Symbol", "H"), ("Group", "Alkalické kovy")]] [] "Symbol" "H" =
      some ([("Symbol", "H"), ("Group", "Alkalické kovy")],
            [[("Symbol", "H"), ("Group", "Alkalické kovy")]], [foundMsg], 0) := by
  have h := search_element_frame_and_cache [[("Symbol", "H")]]
    [⟨"Alkalické kovy", ["H"]⟩] "Symbol" "H"
    [("Symbol", "H"), ("Group", "Alkalické kovy")]
    [[("Symbol", "H"), ("Group", "Alkalické kovy")]] [foundMsg] 1 rfl
  exact h.2 rfl rfl []

/-- C10 counterexample: with a group whose cs label is the empty string,
the found element is returned with an empty Group value. -/
theorem search_element_empty_label_group :
    search_element [[("Symbol", "H")]] [⟨"", ["H"]⟩] "Symbol" "H" =
      some ([("Symbol", "H"), ("Group", "")],
            [[("Symbol", "H"), ("Group", "")]], [foundMsg], 1)
    ∧ getField [("Symbol", "H"), ("Group", "")] "Group" = some "" := ⟨rfl, rfl⟩

/-- C10 (amended): a found search result always carries a populated Group
field — the pre-existing truthy value, the cs label of the first
containing group, or the unknown-group sentinel — and it is truthy
(non-empty) provided every cs label in the table is non-empty. -/
theorem search_element_found_group_populated
    (elements : List Element) (groups : List GroupRec) (criterion value : String)
    (r : Element) (es : List Element) (m : List String) (k : Nat)
    (h : search_element elements groups criterion value = some (r, es, m, k))
    (hfound : m = [foundMsg])
    (hcs : ∀ g ∈ groups, g.cs ≠ "") :
    truthyO (getField r "Group") = true := by
  rcases search_element_cases groups criterion value elements r es m k h with
    ⟨h1, h2, h3, h4, h5⟩ | ⟨pre, e, post, h1, h2, h3, h4, h6⟩
  · rw [h3] at hfound
    exact absurd hfound (by decide)
  · rcases h6 with ⟨t1, t2, t3, t4⟩ | ⟨t1, sym, t2, t3, t4, t5⟩
    · rw [t2]
      exact t1
    · rw [t3, getField_setField_self]
      have hne := find_group_ne_empty sym groups hcs
      simp [truthyO, truthyS, hne]

/-- Witness for C10: a lookup that resolves the group returns a record
whose Group field is truthy. -/
theorem search_element_found_group_populated_witness :
    truthyO (getField [("Symbol", "H"), ("Group", "Alkalické kovy")] "Group") = true :=
  search_element_found_group_populated [[("Symbol", "H")]]
    [⟨"Alkalické kovy", ["H"]⟩] "Symbol" "H"
    [("Symbol", "H"), ("Group", "Alkalické kovy")]
    [[("Symbol", "H"), ("Group", "Alkalické kovy")]] [foundMsg] 1 rfl rfl (by decide)
